import Mathlib

/-!
Shallow embedding of the Campfire procedural/simulation core.

Real-number (`ℚ`) idealisation of the JavaScript number semantics.  Opaque
deterministic platform functions (`Math.sin`, `Math.cos`, `Math.pow`,
`Math.sqrt`, `Math.PI`) are gathered in a `JsMath` parameter record, and the
`Math.random()` stream is modelled as a function from a call counter to `ℚ`.
-/

/-- A 3-component vector (`THREE.Vector3` with rational coordinates). -/
structure Vec3 where
  x : ℚ
  y : ℚ
  z : ℚ
deriving DecidableEq, Repr

/-- The deterministic platform math functions used by the code. -/
structure JsMath where
  sin : ℚ → ℚ
  cos : ℚ → ℚ
  powf : ℚ → ℚ → ℚ
  sqrtf : ℚ → ℚ
  pi : ℚ

/-! ## EmberSystem (src/components/EmberSystem.ts) -/

/-- Configuration options for the ember system. -/
structure EmberConfig where
  count : ℕ
  origin : Vec3
  spawnRadius : ℚ
  minLife : ℚ
  maxLife : ℚ
  minSize : ℚ
  maxSize : ℚ
  spawnRate : ℚ
deriving DecidableEq, Repr

/-- Model of `DEFAULT_CONFIG` of the ember system. -/
def emberDefaultConfig : EmberConfig :=
  { count := 800, origin := ⟨0, 4/5, 0⟩, spawnRadius := 3/10, minLife := 5/2,
    maxLife := 9/2, minSize := 15, maxSize := 35, spawnRate := 60 }

/-- Internal particle state of the ember system. -/
structure EmberParticle where
  position : Vec3
  velocity : Vec3
  life : ℚ
  maxLife : ℚ
  age : ℚ
  size : ℚ
  flicker : ℚ
  spiralPhase : ℚ
  spiralSpeed : ℚ
  active : Bool
deriving DecidableEq, Repr

/-- Whole-system state: particle pool, GPU-visible buffers (stored here as
per-particle entries of the flat `Float32Array`s), spawn accumulator, clocks,
and the `Math.random()` call counter. -/
structure EmberState where
  config : EmberConfig
  particles : List EmberParticle
  positionsBuf : List Vec3
  lifetimesBuf : List ℚ
  sizesBuf : List ℚ
  flickersBuf : List ℚ
  spawnAccumulator : ℚ
  noiseTime : ℚ
  uTime : ℚ
  randIdx : ℕ
deriving DecidableEq, Repr

/-- Field initialisation performed by `EmberSystem.spawnParticle` on the first
inactive particle it finds (`k` is the current `Math.random()` call counter;
the `flicker` field is kept from the reused pool slot). -/
def emberSpawnFields (M : JsMath) (rand : ℕ → ℚ) (cfg : EmberConfig) (k : ℕ)
    (p : EmberParticle) : EmberParticle :=
  let angle := rand k * M.pi * 2
  let radius := rand (k+1) * cfg.spawnRadius
  let pos : Vec3 :=
    ⟨cfg.origin.x + M.cos angle * radius,
     cfg.origin.y + (rand (k+2) - 3/10) * (2/5),
     cfg.origin.z + M.sin angle * radius⟩
  let speed := 4/5 + rand (k+3) * (6/5)
  let spreadAngle := rand (k+4) * M.pi * 2
  let spreadRadius := rand (k+5) * (3/10)
  let vel : Vec3 :=
    ⟨M.cos spreadAngle * spreadRadius, speed, M.sin spreadAngle * spreadRadius⟩
  { p with
    position := pos
    velocity := vel
    maxLife := cfg.minLife + rand (k+6) * (cfg.maxLife - cfg.minLife)
    age := 0
    life := 1
    size := cfg.minSize + rand (k+7) * (cfg.maxSize - cfg.minSize)
    spiralPhase := rand (k+8) * M.pi * 2
    spiralSpeed := 1/2 + rand (k+9) * 2
    active := true }

/-- Replace the first inactive particle of the pool (`particles.find(p => !p.active)`
followed by in-place mutation of the found slot). -/
def emberSpawnInto (f : EmberParticle → EmberParticle) :
    List EmberParticle → List EmberParticle
  | [] => []
  | p :: rest => if p.active then p :: emberSpawnInto f rest else f p :: rest

/-- Model of `EmberSystem.spawnParticle`: silent no-op when every particle is active,
otherwise initialise the first inactive slot (consuming 10 randoms). -/
def emberSpawnParticle (M : JsMath) (rand : ℕ → ℚ) (s : EmberState) : EmberState :=
  if s.particles.any (fun p => !p.active) then
    { s with
      particles := emberSpawnInto (emberSpawnFields M rand s.config s.randIdx) s.particles
      randIdx := s.randIdx + 10 }
  else s

/-- Fuel-indexed translation of `while (accumulator >= 1) { spawn; accumulator -= 1 }`;
returns the final accumulator, the pool state, and the number of spawn calls.
The fuel passed at the call site (`⌊acc⌋.toNat`) always suffices. -/
def spawnLoop {α : Type} (spawn : α → α) : ℕ → ℚ → α → ℚ × α × ℕ
  | 0, acc, pool => (acc, pool, 0)
  | fuel+1, acc, pool =>
    if 1 ≤ acc then
      let r := spawnLoop spawn fuel (acc - 1) (spawn pool)
      (r.1, r.2.1, r.2.2 + 1)
    else (acc, pool, 0)

/-- Per-particle physics step of `EmberSystem.update` (the loop body, for the
already-clamped `dt` and the already-advanced `noiseTime`). -/
def emberParticleStep (M : JsMath) (dt noiseTime : ℚ) (p : EmberParticle) :
    EmberParticle :=
  if p.active then
    let age := p.age + dt
    let life := max 0 (1 - age / p.maxLife)
    if life ≤ 0 then
      { p with age := age, life := life, active := false }
    else
      let v1 : Vec3 := ⟨p.velocity.x, p.velocity.y + (-1/2) * dt * (3/10), p.velocity.z⟩
      let damp := M.powf (97/100) (dt * 60)
      let v2 : Vec3 := ⟨v1.x * damp, v1.y * damp, v1.z * damp⟩
      let turbX := M.sin (noiseTime * 2 + p.position.y * 3 + p.spiralPhase) * (3/20)
      let turbZ := M.cos (noiseTime * (17/10) + p.position.y * (5/2) + p.spiralPhase * (13/10)) * (3/20)
      let v3 : Vec3 := ⟨v2.x + turbX * dt, v2.y, v2.z + turbZ * dt⟩
      let spiralRadius := (1/50) * life
      let spiralAngle := age * p.spiralSpeed + p.spiralPhase
      let pos1 : Vec3 :=
        ⟨p.position.x + M.cos spiralAngle * spiralRadius * dt, p.position.y,
         p.position.z + M.sin spiralAngle * spiralRadius * dt⟩
      let pos2 : Vec3 := ⟨pos1.x + v3.x * dt, pos1.y + v3.y * dt, pos1.z + v3.z * dt⟩
      { p with position := pos2, velocity := v3, life := life, age := age }
  else p

/-- Buffer write for the position attribute: active particles publish their
position, inactive/dead ones only get their y entry forced to `-100`. -/
def emberPosBufEntry (p : EmberParticle) (old : Vec3) : Vec3 :=
  if p.active then p.position else ⟨old.x, -100, old.z⟩

/-- Buffer write for the `aLife` attribute (0 for inactive/dead particles). -/
def emberLifeBufEntry (p : EmberParticle) : ℚ :=
  if p.active then p.life else 0

/-- Buffer write for the `aSize` attribute (shrinks with remaining life;
untouched for inactive/dead particles). -/
def emberSizeBufEntry (p : EmberParticle) (old : ℚ) : ℚ :=
  if p.active then p.size * (3/10 + (7/10) * p.life) else old

/-- Body of `EmberSystem.update` for an already-clamped `dt`. Returns the new
state together with the number of spawn calls made by the accumulator loop. -/
def emberUpdateBody (M : JsMath) (rand : ℕ → ℚ) (dt : ℚ) (s : EmberState) :
    EmberState × ℕ :=
  let s1 := { s with noiseTime := s.noiseTime + dt, uTime := s.uTime + dt }
  let acc := s1.spawnAccumulator + dt * s1.config.spawnRate
  let r := spawnLoop (emberSpawnParticle M rand) (Int.toNat ⌊acc⌋) acc s1
  let s2 := r.2.1
  let parts := s2.particles.map (emberParticleStep M dt (s.noiseTime + dt))
  ({ s2 with
      spawnAccumulator := r.1
      particles := parts
      positionsBuf := List.zipWith emberPosBufEntry parts s2.positionsBuf
      lifetimesBuf := parts.map emberLifeBufEntry
      sizesBuf := List.zipWith emberSizeBufEntry parts s2.sizesBuf }, r.2.2)

/-- Model of `EmberSystem.update(deltaTime)`: clamps the delta to at most `0.1` seconds
before anything else happens. -/
def emberUpdate (M : JsMath) (rand : ℕ → ℚ) (deltaTime : ℚ) (s : EmberState) :
    EmberState × ℕ :=
  emberUpdateBody M rand (min deltaTime (1/10)) s

/-- Model of `EmberSystem.setIntensity`: computes the clamped intensity (dead value)
and resets the spawn accumulator. -/
def emberSetIntensity (intensity : ℚ) (s : EmberState) : EmberState :=
  let _clamped := max 0 (min 1 intensity)
  { s with spawnAccumulator := 0 }

/-- Particle produced by the constructor's pool-initialisation loop
(index `i` consumes three `Math.random()` values). -/
def emberInitParticle (M : JsMath) (rand : ℕ → ℚ) (i : ℕ) : EmberParticle :=
  { position := ⟨0, 0, 0⟩, velocity := ⟨0, 0, 0⟩, life := 0, maxLife := 0,
    age := 0, size := 0, flicker := rand (3*i),
    spiralPhase := rand (3*i+1) * M.pi * 2,
    spiralSpeed := 1/2 + rand (3*i+2) * (3/2), active := false }

/-- Model of `Math.floor(count * 0.3)`, the size of the constructor's spawn burst. -/
def emberInitialBurst (count : ℕ) : ℕ := Int.toNat ⌊(count : ℚ) * (3/10)⌋

/-- Model of `new EmberSystem(config)`: build the inactive pool and buffers, then run
the initial spawn burst of `Math.floor(count * 0.3)` spawn calls. -/
def emberInit (M : JsMath) (rand : ℕ → ℚ) (cfg : EmberConfig) : EmberState :=
  let particles := (List.range cfg.count).map (emberInitParticle M rand)
  let s0 : EmberState :=
    { config := cfg
      particles := particles
      positionsBuf := List.replicate cfg.count ⟨0, -100, 0⟩
      lifetimesBuf := List.replicate cfg.count 0
      sizesBuf := List.replicate cfg.count 0
      flickersBuf := particles.map (fun p => p.flicker)
      spawnAccumulator := 0
      noiseTime := 0
      uTime := 0
      randIdx := 3 * cfg.count }
  (emberSpawnParticle M rand)^[emberInitialBurst cfg.count] s0

/-- Number of particles currently flagged active. -/
def emberActiveCount (s : EmberState) : ℕ :=
  s.particles.countP (fun p => p.active)

/-- Drive `EmberSystem.update` once per listed delta, summing spawn counts. -/
def emberRunUpdates (M : JsMath) (rand : ℕ → ℚ) :
    List ℚ → EmberState → EmberState × ℕ
  | [], s => (s, 0)
  | dt :: rest, s =>
    let r := emberUpdate M rand dt s
    let r2 := emberRunUpdates M rand rest r.1
    (r2.1, r.2 + r2.2)

/-! ## SmokeSystem (src/components/SmokeSystem.ts) -/

/-- Configuration options for the smoke system. -/
structure SmokeConfig where
  maxParticles : ℕ
  spawnRate : ℚ
  baseSize : ℚ
  color : Vec3
  spawnRadius : ℚ
  spawnHeight : ℚ
  minLifetime : ℚ
  maxLifetime : ℚ
  turbulenceStrength : ℚ
  wind : Vec3
deriving DecidableEq, Repr

/-- Model of `DEFAULT_CONFIG` of the smoke system (the color is the normalized RGB of
`0x1a1612`). -/
def smokeDefaultConfig : SmokeConfig :=
  { maxParticles := 300, spawnRate := 15, baseSize := 1,
    color := ⟨26/255, 22/255, 18/255⟩, spawnRadius := 3/10, spawnHeight := 9/5,
    minLifetime := 4, maxLifetime := 6, turbulenceStrength := 3/10,
    wind := ⟨1/10, 0, 1/20⟩ }

/-- Individual smoke particle (life runs 0 = fresh to 1 = dead). -/
structure SmokeParticle where
  active : Bool
  position : Vec3
  velocity : Vec3
  life : ℚ
  lifeSpeed : ℚ
  size : ℚ
  rotation : ℚ
  rotationSpeed : ℚ
  noiseOffset : Vec3
deriving DecidableEq, Repr

/-- Whole smoke-system state (pool, GPU buffers, spawn accumulator, clock,
`Math.random()` counter). -/
structure SmokeState where
  config : SmokeConfig
  particles : List SmokeParticle
  positionsBuf : List Vec3
  sizesBuf : List ℚ
  livesBuf : List ℚ
  rotationsBuf : List ℚ
  spawnAccumulator : ℚ
  elapsedTime : ℚ
  uTime : ℚ
  randIdx : ℕ
deriving DecidableEq, Repr

/-- Model of `SmokeSystem.noise3D`: sine-based pseudo-noise used for turbulence. -/
def smokeNoise3D (M : JsMath) (x y z : ℚ) : ℚ :=
  M.sin (x * (6/5) + y * (7/10)) * (3/10) +
  M.sin (y * (3/2) + z * (9/10)) * (3/10) +
  M.sin (z * (4/5) + x * (11/10)) * (2/5)

/-- Field initialisation performed by `SmokeSystem.spawnParticle` on the first
inactive slot (consumes 13 randoms starting at counter `k`). -/
def smokeSpawnFields (M : JsMath) (rand : ℕ → ℚ) (cfg : SmokeConfig) (k : ℕ)
    (p : SmokeParticle) : SmokeParticle :=
  let lifetime := cfg.minLifetime + rand k * (cfg.maxLifetime - cfg.minLifetime)
  let angle := rand (k+1) * M.pi * 2
  let radius := rand (k+2) * cfg.spawnRadius
  let speed := 3/10 + rand (k+3) * (3/10)
  { p with
    active := true
    life := 0
    lifeSpeed := 1 / lifetime
    position := ⟨M.cos angle * radius, cfg.spawnHeight, M.sin angle * radius⟩
    velocity := ⟨(rand (k+4) - 1/2) * (1/10), speed, (rand (k+5) - 1/2) * (1/10)⟩
    size := cfg.baseSize * (4/5 + rand (k+6) * (2/5))
    rotation := rand (k+7) * M.pi * 2
    rotationSpeed := (1/100 + rand (k+8) * (1/50)) * (if 1/2 < rand (k+9) then 1 else -1)
    noiseOffset := ⟨rand (k+10) * 100, rand (k+11) * 100, rand (k+12) * 100⟩ }

/-- Replace the first inactive smoke particle of the pool. -/
def smokeSpawnInto (f : SmokeParticle → SmokeParticle) :
    List SmokeParticle → List SmokeParticle
  | [] => []
  | p :: rest => if p.active then p :: smokeSpawnInto f rest else f p :: rest

/-- Model of `SmokeSystem.spawnParticle`: silent no-op when the pool is saturated. -/
def smokeSpawnParticle (M : JsMath) (rand : ℕ → ℚ) (s : SmokeState) : SmokeState :=
  if s.particles.any (fun p => !p.active) then
    { s with
      particles := smokeSpawnInto (smokeSpawnFields M rand s.config s.randIdx) s.particles
      randIdx := s.randIdx + 13 }
  else s

/-- Per-particle step of `SmokeSystem.update` (NB: the raw `deltaTime` is used,
there is no clamping in this system; `elapsed` is the already-advanced
`elapsedTime`; the noise scale is the fixed `0.5`). -/
def smokeParticleStep (M : JsMath) (cfg : SmokeConfig) (dt elapsed : ℚ)
    (p : SmokeParticle) : SmokeParticle :=
  if p.active then
    let life := p.life + p.lifeSpeed * dt
    if 1 ≤ life then
      { p with life := life, active := false }
    else
      let ns : ℚ := 1/2
      let noiseX := smokeNoise3D M (p.position.x * ns + p.noiseOffset.x)
        (p.position.y * ns + elapsed * (3/10)) (p.position.z * ns)
      let noiseZ := smokeNoise3D M (p.position.z * ns + p.noiseOffset.z)
        (p.position.y * ns + elapsed * (3/10)) (p.position.x * ns)
      let v1 : Vec3 := ⟨p.velocity.x + noiseX * cfg.turbulenceStrength * dt,
        p.velocity.y, p.velocity.z + noiseZ * cfg.turbulenceStrength * dt⟩
      let v2 : Vec3 := ⟨v1.x + cfg.wind.x * (dt * (1/2)),
        v1.y + cfg.wind.y * (dt * (1/2)), v1.z + cfg.wind.z * (dt * (1/2))⟩
      let v3 : Vec3 := ⟨v2.x, v2.y * (199/200), v2.z⟩
      let pos : Vec3 := ⟨p.position.x + v3.x * dt, p.position.y + v3.y * dt,
        p.position.z + v3.z * dt⟩
      { p with
        life := life
        velocity := v3
        position := pos
        rotation := p.rotation + p.rotationSpeed }
  else p

/-- Position buffer entry (only written for live particles). -/
def smokePosBufEntry (p : SmokeParticle) (old : Vec3) : Vec3 :=
  if p.active then p.position else old

/-- Model of `aSize` buffer entry. -/
def smokeSizeBufEntry (p : SmokeParticle) (old : ℚ) : ℚ :=
  if p.active then p.size else old

/-- Model of `aLife` buffer entry (1 = dead sentinel for inactive particles). -/
def smokeLifeBufEntry (p : SmokeParticle) : ℚ :=
  if p.active then p.life else 1

/-- Model of `aRotation` buffer entry. -/
def smokeRotBufEntry (p : SmokeParticle) (old : ℚ) : ℚ :=
  if p.active then p.rotation else old

/-- Model of `SmokeSystem.update(deltaTime)`: advances the clock, runs the spawn
accumulator loop and the per-particle physics, with the *unclamped* delta.
Returns the number of spawn calls as the second component. -/
def smokeUpdate (M : JsMath) (rand : ℕ → ℚ) (deltaTime : ℚ) (s : SmokeState) :
    SmokeState × ℕ :=
  let s1 := { s with elapsedTime := s.elapsedTime + deltaTime,
                     uTime := s.elapsedTime + deltaTime }
  let acc := s1.spawnAccumulator + deltaTime * s1.config.spawnRate
  let r := spawnLoop (smokeSpawnParticle M rand) (Int.toNat ⌊acc⌋) acc s1
  let s2 := r.2.1
  let parts := s2.particles.map
    (smokeParticleStep M s2.config deltaTime (s.elapsedTime + deltaTime))
  ({ s2 with
      spawnAccumulator := r.1
      particles := parts
      positionsBuf := List.zipWith smokePosBufEntry parts s2.positionsBuf
      sizesBuf := List.zipWith smokeSizeBufEntry parts s2.sizesBuf
      livesBuf := parts.map smokeLifeBufEntry
      rotationsBuf := List.zipWith smokeRotBufEntry parts s2.rotationsBuf }, r.2.2)

/-- Number of active smoke particles (`SmokeSystem.getActiveCount`). -/
def smokeActiveCount (s : SmokeState) : ℕ :=
  s.particles.countP (fun p => p.active)

/-- Drive `SmokeSystem.update` once per listed delta, summing spawn counts. -/
def smokeRunUpdates (M : JsMath) (rand : ℕ → ℚ) :
    List ℚ → SmokeState → SmokeState × ℕ
  | [], s => (s, 0)
  | dt :: rest, s =>
    let r := smokeUpdate M rand dt s
    let r2 := smokeRunUpdates M rand rest r.1
    (r2.1, r.2 + r2.2)

/-! ## Noise library (src/utils/noise.ts) -/

/-- The 12 fixed 3D gradient vectors. -/
def grad3 : List (ℤ × ℤ × ℤ) :=
  [(1,1,0), (-1,1,0), (1,-1,0), (-1,-1,0),
   (1,0,1), (-1,0,1), (1,0,-1), (-1,0,-1),
   (0,1,1), (0,-1,1), (0,1,-1), (0,-1,-1)]

/-- Module-level mutable noise state: the 512-entry permutation table
(`gradP` is derived from it below, exactly as `gradP[i] = grad3[perm[i] % 12]`
is maintained in the source). -/
structure NoiseState where
  perm : List ℕ
deriving DecidableEq, Repr

/-- One step of the seeded LCG used by `seed` (JS `%` on numbers truncates
toward zero, i.e. `Int.tmod`). -/
def lcg (s : ℤ) : ℤ := Int.tmod (s * 16807) 2147483647

/-- The seeded Fisher-Yates shuffle of `seed`: produce the 256-entry table
`p`.  For a negative LCG state the JS swap degenerates: `p[j]` reads
`undefined` from the `Uint8Array`, so `p[i]` is assigned `0` and the
out-of-range write to `p[j]` is dropped. -/
def seedShuffle (seedValue : ℤ) : List ℕ :=
  let step := fun (st : List ℕ × ℤ) (i : ℕ) =>
    let s := lcg st.2
    let j := Int.tmod s ((i : ℤ) + 1)
    if j < 0 then (st.1.set i 0, s)
    else
      let pi := st.1.getD i 0
      let pj := st.1.getD j.toNat 0
      ((st.1.set i pj).set j.toNat pi, s)
  (((List.range 255).map (fun k => 255 - k)).foldl step (List.range 256, seedValue)).1

/-- Model of `seed(seedValue)`: rebuild the whole permutation table from the integer.
The previous global state is taken (the function overwrites module state) but
every entry of the new table is freshly written, so it is never read. -/
def seedUpd (prev : NoiseState) (seedValue : ℤ) : NoiseState :=
  let p := seedShuffle seedValue
  { perm := (List.range 512).map (fun i => p.getD (i % 256) 0) }

/-- Table lookup `perm[n]`. -/
def permAt (st : NoiseState) (n : ℕ) : ℕ := st.perm.getD n 0

/-- Table lookup `gradP[n] = grad3[perm[n] % 12]`. -/
def gradP (st : NoiseState) (n : ℕ) : ℤ × ℤ × ℤ :=
  grad3.getD (permAt st n % 12) (0, 0, 0)

/-- Corner contribution `t^4 * dot(g, d)` gated at `t >= 0`. -/
def noiseCorner (g : ℤ × ℤ × ℤ) (dx dy dz : ℚ) : ℚ :=
  let t := 3/5 - dx * dx - dy * dy - dz * dz
  if 0 ≤ t then (t * t) * (t * t) * ((g.1 : ℚ) * dx + (g.2.1 : ℚ) * dy + (g.2.2 : ℚ) * dz)
  else 0

/-- Model of `noise3D(x, y, z)`: classic 3D simplex noise over the current permutation
table (JS `i & 255` on an int32 is the nonnegative residue `i % 256`). -/
def noise3D (st : NoiseState) (x y z : ℚ) : ℚ :=
  let F3 : ℚ := 1/3
  let G3 : ℚ := 1/6
  let s := (x + y + z) * F3
  let i : ℤ := ⌊x + s⌋
  let j : ℤ := ⌊y + s⌋
  let k : ℤ := ⌊z + s⌋
  let t := ((i + j + k : ℤ) : ℚ) * G3
  let x0 := x - ((i : ℚ) - t)
  let y0 := y - ((j : ℚ) - t)
  let z0 := z - ((k : ℚ) - t)
  let c : ℕ × ℕ × ℕ × ℕ × ℕ × ℕ :=
    if y0 ≤ x0 then
      if z0 ≤ y0 then (1, 0, 0, 1, 1, 0)
      else if z0 ≤ x0 then (1, 0, 0, 1, 0, 1)
      else (0, 0, 1, 1, 0, 1)
    else
      if y0 < z0 then (0, 0, 1, 0, 1, 1)
      else if x0 < z0 then (0, 1, 0, 0, 1, 1)
      else (0, 1, 0, 1, 1, 0)
  let i1 := c.1
  let j1 := c.2.1
  let k1 := c.2.2.1
  let i2 := c.2.2.2.1
  let j2 := c.2.2.2.2.1
  let k2 := c.2.2.2.2.2
  let x1 := x0 - (i1 : ℚ) + G3
  let y1 := y0 - (j1 : ℚ) + G3
  let z1 := z0 - (k1 : ℚ) + G3
  let x2 := x0 - (i2 : ℚ) + 2 * G3
  let y2 := y0 - (j2 : ℚ) + 2 * G3
  let z2 := z0 - (k2 : ℚ) + 2 * G3
  let x3 := x0 - 1 + 3 * G3
  let y3 := y0 - 1 + 3 * G3
  let z3 := z0 - 1 + 3 * G3
  let ii := (Int.emod i 256).toNat
  let jj := (Int.emod j 256).toNat
  let kk := (Int.emod k 256).toNat
  let n0 := noiseCorner (gradP st (ii + permAt st (jj + permAt st kk))) x0 y0 z0
  let n1 := noiseCorner (gradP st (ii + i1 + permAt st (jj + j1 + permAt st (kk + k1)))) x1 y1 z1
  let n2 := noiseCorner (gradP st (ii + i2 + permAt st (jj + j2 + permAt st (kk + k2)))) x2 y2 z2
  let n3 := noiseCorner (gradP st (ii + 1 + permAt st (jj + 1 + permAt st (kk + 1)))) x3 y3 z3
  32 * (n0 + n1 + n2 + n3)

/-- Model of `fbm3D(x, y, z, octaves, lacunarity, persistence)`: octave accumulation
loop, returning `value / maxValue`. -/
def fbm3D (st : NoiseState) (x y z : ℚ) (octaves : ℕ)
    (lacunarity persistence : ℚ) : ℚ :=
  let r := (List.range octaves).foldl
    (fun (acc : ℚ × ℚ × ℚ × ℚ) _ =>
      let value := acc.1
      let amplitude := acc.2.1
      let frequency := acc.2.2.1
      let maxValue := acc.2.2.2
      (value + amplitude * noise3D st (x * frequency) (y * frequency) (z * frequency),
       amplitude * persistence, frequency * lacunarity, maxValue + amplitude))
    (0, 1, 1, 0)
  r.1 / r.2.2.2

/-! ## RockGenerator (src/components/RockGenerator.ts) -/

/-- Model of `RockOptions` (all fields optional; defaults merged in below). -/
structure RockOptions where
  radius : Option ℚ := none
  detail : Option ℕ := none
  noiseFrequency : Option ℚ := none
  noiseAmplitude : Option ℚ := none
  octaves : Option ℕ := none
  seed : Option ℤ := none
  scaleVariation : Option Vec3 := none
deriving DecidableEq, Repr

/-- Model of `RockRingOptions`. -/
structure RockRingOptions where
  count : Option ℕ := none
  innerRadius : Option ℚ := none
  outerRadius : Option ℚ := none
  minScale : Option ℚ := none
  maxScale : Option ℚ := none
  seed : Option ℤ := none
deriving DecidableEq, Repr

/-- Model of `createRockGeometry`: optionally reseed the noise library, then displace
every base-icosahedron vertex along its normalized direction by an `fbm3D`
sample, then apply the optional per-axis scale variation.  The base vertices
of `THREE.IcosahedronGeometry(radius, detail)` are supplied by the caller
(they are a fixed deterministic function of radius and detail).  Returns the
displaced vertex array and the new module-level noise state. -/
def createRockGeometry (M : JsMath) (st : NoiseState) (opts : RockOptions)
    (baseVerts : List Vec3) : List Vec3 × NoiseState :=
  let st1 := match opts.seed with
    | some sv => seedUpd st sv
    | none => st
  let radius := opts.radius.getD (3/10)
  let freq := opts.noiseFrequency.getD 2
  let amp := opts.noiseAmplitude.getD (3/10)
  let oct := opts.octaves.getD 4
  let verts := baseVerts.map (fun v =>
    let len := M.sqrtf (v.x * v.x + v.y * v.y + v.z * v.z)
    let d := if len = 0 then 1 else len
    let n : Vec3 := ⟨v.x / d, v.y / d, v.z / d⟩
    let noiseValue := fbm3D st1 (v.x * freq) (v.y * freq) (v.z * freq) oct 2 (1/2)
    let displacement := noiseValue * amp * radius
    let v1 : Vec3 := ⟨v.x + n.x * displacement, v.y + n.y * displacement,
                      v.z + n.z * displacement⟩
    match opts.scaleVariation with
    | some sc => ⟨v1.x * sc.x, v1.y * sc.y, v1.z * sc.z⟩
    | none => v1)
  (verts, st1)

/-- Model of `seededRandom()`: advance the LCG and map into `[0, 1)`
(`(randomSeed - 1) / 2147483646` for the *updated* seed). -/
def lcgVal (r : ℤ) : ℚ := ((r : ℚ) - 1) / 2147483646

/-- Everything `createRockRing` computes for one rock: placement data and the
displaced vertex array of its geometry. -/
structure RockItem where
  angle : ℚ
  radius : ℚ
  scale : ℚ
  position : Vec3
  rotation : Vec3
  verts : List Vec3
deriving DecidableEq, Repr

/-- The per-index loop of `createRockRing`, threading the ring's LCG state and
the module-level noise state.  Each iteration consumes 12 seeded randoms in
source order: angle offset, radius, scale, noise frequency, noise amplitude,
rock seed, scale variation (x, y, z), rotation (x, y, z). -/
def rockRingGo (M : JsMath) (count : ℕ) (innerRadius outerRadius minScale maxScale : ℚ)
    (baseVerts : List Vec3) :
    List ℕ → ℤ → NoiseState → List RockItem × ℤ × NoiseState
  | [], rs, ns => ([], rs, ns)
  | i :: rest, rs, ns =>
    let rs1 := lcg rs
    let baseAngle := ((i : ℚ) / (count : ℚ)) * M.pi * 2
    let angleOffset := (lcgVal rs1 - 1/2) * (M.pi * 2 / (count : ℚ)) * (1/2)
    let angle := baseAngle + angleOffset
    let rs2 := lcg rs1
    let radius := innerRadius + lcgVal rs2 * (outerRadius - innerRadius)
    let rs3 := lcg rs2
    let scale := minScale + lcgVal rs3 * (maxScale - minScale)
    let rs4 := lcg rs3
    let rs5 := lcg rs4
    let rs6 := lcg rs5
    let rs7 := lcg rs6
    let rs8 := lcg rs7
    let rs9 := lcg rs8
    let rockOpts : RockOptions :=
      { radius := some (1/4)
        detail := some 1
        noiseFrequency := some (5/2 + lcgVal rs4 * (3/2))
        noiseAmplitude := some (1/4 + lcgVal rs5 * (3/20))
        seed := some ⌊lcgVal rs6 * 1000000⌋
        scaleVariation := some ⟨4/5 + lcgVal rs7 * (2/5), 3/5 + lcgVal rs8 * (2/5),
                                4/5 + lcgVal rs9 * (2/5)⟩ }
    let g := createRockGeometry M ns rockOpts baseVerts
    let rs10 := lcg rs9
    let rs11 := lcg rs10
    let rs12 := lcg rs11
    let item : RockItem :=
      { angle := angle
        radius := radius
        scale := scale
        position := ⟨M.cos angle * radius, scale * (3/10), M.sin angle * radius⟩
        rotation := ⟨lcgVal rs10 * M.pi * 2, lcgVal rs11 * M.pi * 2, lcgVal rs12 * M.pi * 2⟩
        verts := g.1 }
    let r := rockRingGo M count innerRadius outerRadius minScale maxScale baseVerts rest rs12 g.2
    (item :: r.1, r.2)

/-- Model of `createRockRing(options)`: merge defaults, reseed the noise library when a
seed is given, initialise the ring's own LCG (`options.seed ?? Date.now()`,
the clock value being passed in as `now`), and build the rocks. -/
def createRockRing (M : JsMath) (now : ℤ) (st : NoiseState)
    (opts : RockRingOptions) (baseVerts : List Vec3) : List RockItem × NoiseState :=
  let count := opts.count.getD 10
  let innerRadius := opts.innerRadius.getD (3/2)
  let outerRadius := opts.outerRadius.getD 2
  let minScale := opts.minScale.getD (3/10)
  let maxScale := opts.maxScale.getD (3/5)
  let st1 := match opts.seed with
    | some sv => seedUpd st sv
    | none => st
  let seed0 : ℤ := match opts.seed with
    | some sv => sv
    | none => now
  let r := rockRingGo M count innerRadius outerRadius minScale maxScale baseVerts
    (List.range count) seed0 st1
  (r.1, r.2.2)

/-! ## Fire fragment shader (src/shaders/fire.frag.glsl), alpha path -/

/-- GLSL `clamp`. -/
def glslClamp (x lo hi : ℚ) : ℚ := min (max x lo) hi

/-- GLSL `smoothstep`. -/
def smoothstep (e0 e1 x : ℚ) : ℚ :=
  let t := glslClamp ((x - e0) / (e1 - e0)) 0 1
  t * t * (3 - 2 * t)

/-- The alpha computation of the fire fragment shader's `main`, for a fragment
at world height `posY` and radial distance `radialDist` from the flame axis.
The four `snoise` samples (three turbulence octaves and the tip noise), the
flicker `sin` sample and GLSL `pow` are passed in as values/functions, since
the claim quantifies over all time/noise-scale/scroll-speed uniforms. -/
def fireHeight (posY : ℚ) : ℚ := glslClamp (posY / (11/5)) 0 1

/-- Model of `turbulence`: the three noise octaves remapped to `[0,1]` and combined
with weights 0.5 / 0.3 / 0.2. -/
def fireTurbulence (n1 n2 n3 : ℚ) : ℚ :=
  (n1 * (1/2) + 1/2) * (1/2) + (n2 * (1/2) + 1/2) * (3/10) + (n3 * (1/2) + 1/2) * (1/5)

/-- Model of `flameRadius` after the noise variation. -/
def fireFlameRadius (powf : ℚ → ℚ → ℚ) (turbulence height : ℚ) : ℚ :=
  (11/20) * (1 - powf height (1/2)) * (7/10 + turbulence * (1/2))

/-- Model of `flameMask`. -/
def fireFlameMask (powf : ℚ → ℚ → ℚ) (turbulence height radialDist : ℚ) : ℚ :=
  1 - smoothstep (fireFlameRadius powf turbulence height * (1/5))
        (fireFlameRadius powf turbulence height) radialDist

/-- Model of `heightFade`. -/
def fireHeightFade (height : ℚ) : ℚ := 1 - smoothstep (1/5) (19/20) height

/-- Model of `tipMask`. -/
def fireTipMask (tipN height : ℚ) : ℚ :=
  1 - smoothstep (3/5 + (tipN * (1/2) + 1/2) * (1/5)) 1 height

/-- Model of `flameShape = pow(flameMask * heightFade * tipMask, 0.8)`. -/
def fireFlameShape (powf : ℚ → ℚ → ℚ) (flameMask heightFade tipMask : ℚ) : ℚ :=
  powf (flameMask * heightFade * tipMask) (4/5)

/-- Model of `coreIntensity`. -/
def fireCoreIntensity (powf : ℚ → ℚ → ℚ) (radialDist height : ℚ) : ℚ :=
  powf (glslClamp ((1 - radialDist / (11/20) * (3/2)) * (1 - height * (3/5))) 0 1) (3/2)

/-- Model of `temp`, the color-ramp temperature. -/
def fireTemp (flameShape coreIntensity turbulence uIntensity : ℚ) : ℚ :=
  glslClamp ((flameShape * (1/2) + coreIntensity * (3/5) + (turbulence - 1/2) * (1/10)) * uIntensity) 0 1

def fireFragAlpha (powf : ℚ → ℚ → ℚ) (n1 n2 n3 tipN sinFlicker : ℚ)
    (posY radialDist uIntensity : ℚ) : ℚ :=
  let height := fireHeight posY
  let turbulence := fireTurbulence n1 n2 n3
  let flameShape := fireFlameShape powf (fireFlameMask powf turbulence height radialDist)
    (fireHeightFade height) (fireTipMask tipN height)
  let temp := fireTemp flameShape (fireCoreIntensity powf radialDist height) turbulence uIntensity
  let alpha3 := flameShape * smoothstep 0 (1/10) temp * smoothstep 0 (3/20) height
    * (9/10 + (1/10) * sinFlicker)
  glslClamp (alpha3 * uIntensity * (11/10)) 0 (19/20)

/-- Model of `if (alpha < 0.01) discard`. -/
def fireFragDiscards (powf : ℚ → ℚ → ℚ) (n1 n2 n3 tipN sinFlicker : ℚ)
    (posY radialDist uIntensity : ℚ) : Bool :=
  fireFragAlpha powf n1 n2 n3 tipN sinFlicker posY radialDist uIntensity < 1/100

/-! ## Concrete instances used by witnesses and counterexamples -/

/-- Trivial platform-math instance (any deterministic instance works for the
statements that quantify over `JsMath`). -/
def jsMath0 : JsMath :=
  { sin := fun _ => 0, cos := fun _ => 0, powf := fun _ _ => 0,
    sqrtf := fun _ => 0, pi := 0 }

/-- A concrete `Math.random()` stream. -/
def rand0 : ℕ → ℚ := fun _ => 0

/-- Ember system with an empty pool (capacity 0) and the default spawn rate:
the spawn accumulator dynamics are unaffected by pool contents. -/
def emberState0 : EmberState :=
  { config := { emberDefaultConfig with count := 0 }
    particles := []
    positionsBuf := []
    lifetimesBuf := []
    sizesBuf := []
    flickersBuf := []
    spawnAccumulator := 0
    noiseTime := 0
    uTime := 0
    randIdx := 0 }

/-- One active smoke particle rising at `0.3` units/s straight up. -/
def smokeP1 : SmokeParticle :=
  { active := true, position := ⟨0, 0, 0⟩, velocity := ⟨0, 3/10, 0⟩,
    life := 0, lifeSpeed := 1/6, size := 1, rotation := 0, rotationSpeed := 0,
    noiseOffset := ⟨0, 0, 0⟩ }

/-- Saturated one-slot smoke system holding `smokeP1`, with spawning turned
off (`spawnRate = 0`) so the accumulator loop is empty. -/
def smokeState1 : SmokeState :=
  { config := { smokeDefaultConfig with maxParticles := 1, spawnRate := 0 }
    particles := [smokeP1]
    positionsBuf := [⟨0, 0, 0⟩]
    sizesBuf := [1]
    livesBuf := [0]
    rotationsBuf := [0]
    spawnAccumulator := 0
    elapsedTime := 0
    uTime := 0
    randIdx := 0 }

/-- Smoke system with an empty pool and the default spawn rate. -/
def smokeState0 : SmokeState :=
  { config := { smokeDefaultConfig with maxParticles := 0 }
    particles := []
    positionsBuf := []
    sizesBuf := []
    livesBuf := []
    rotationsBuf := []
    spawnAccumulator := 0
    elapsedTime := 0
    uTime := 0
    randIdx := 0 }

/-- A fresh inactive ember pool slot. -/
def emberPInactive : EmberParticle :=
  { position := ⟨0, 0, 0⟩, velocity := ⟨0, 0, 0⟩, life := 0, maxLife := 0,
    age := 0, size := 0, flicker := 0, spiralPhase := 0, spiralSpeed := 1,
    active := false }

/-- An active ember particle. -/
def emberPActive : EmberParticle :=
  { emberPInactive with life := 1, maxLife := 3, active := true }

/-- Capacity-1 ember system holding one active particle (saturated pool). -/
def emberStateFull : EmberState :=
  { emberState0 with
    config := { emberDefaultConfig with count := 1 }
    particles := [emberPActive]
    positionsBuf := [⟨0, 0, 0⟩]
    lifetimesBuf := [1]
    sizesBuf := [0]
    flickersBuf := [0] }

/-- Capacity-1 ember system with its only slot inactive. -/
def emberStateIdle : EmberState :=
  { emberStateFull with particles := [emberPInactive] }

/-- An inactive smoke pool slot. -/
def smokePInactive : SmokeParticle :=
  { smokeP1 with active := false }

/-- Capacity-1 smoke system with its only slot inactive. -/
def smokeStateIdle : SmokeState :=
  { smokeState1 with particles := [smokePInactive] }

/-- Operations that can be applied to a particle system from outside a single
update: a spawn attempt, or an `update(dt)` call. -/
inductive PoolOp where
  | spawn : PoolOp
  | update (dt : ℚ) : PoolOp

/-- Apply one operation to the ember system. -/
def applyEmberOp (M : JsMath) (rand : ℕ → ℚ) (s : EmberState) : PoolOp → EmberState
  | PoolOp.spawn => emberSpawnParticle M rand s
  | PoolOp.update dt => (emberUpdate M rand dt s).1

/-- Apply a sequence of operations to the ember system. -/
def applyEmberOps (M : JsMath) (rand : ℕ → ℚ) (ops : List PoolOp) (s : EmberState) :
    EmberState :=
  ops.foldl (applyEmberOp M rand) s

/-- Apply one operation to the smoke system. -/
def applySmokeOp (M : JsMath) (rand : ℕ → ℚ) (s : SmokeState) : PoolOp → SmokeState
  | PoolOp.spawn => smokeSpawnParticle M rand s
  | PoolOp.update dt => (smokeUpdate M rand dt s).1

/-- Apply a sequence of operations to the smoke system. -/
def applySmokeOps (M : JsMath) (rand : ℕ → ℚ) (ops : List PoolOp) (s : SmokeState) :
    SmokeState :=
  ops.foldl (applySmokeOp M rand) s

/-- An arbitrary noise-library state (empty permutation table). -/
def noiseStA : NoiseState := ⟨[]⟩

/-- A different arbitrary noise-library state. -/
def noiseStB : NoiseState := ⟨[1]⟩

/-- Ring options: one rock, the radial band `[1.4, 1.8]`, seed 42. -/
def ringOpts42 : RockRingOptions :=
  { count := some 1, innerRadius := some (7/5), outerRadius := some (9/5),
    seed := some 42 }

/-- Ring options: one rock, the radial band `[1.4, 1.8]`, seed 0 — the
degenerate seed of the ring's LCG. -/
def ringOpts0 : RockRingOptions :=
  { count := some 1, innerRadius := some (7/5), outerRadius := some (9/5),
    seed := some 0 }

/-! ## Theorems -/

/-- C10: for every input `x`, `EmberSystem.setIntensity(x)` leaves the
configured spawn rate, every particle's state and all GPU-visible buffers
unchanged; its only effect is resetting the spawn accumulator to 0, and the
result does not depend on `x` (the clamped intensity is dead code). -/
theorem set_intensity_only_resets_accumulator (x y : ℚ) (s : EmberState) :
    emberSetIntensity x s = { s with spawnAccumulator := 0 }
    ∧ (emberSetIntensity x s).particles = s.particles
    ∧ (emberSetIntensity x s).config.spawnRate = s.config.spawnRate
    ∧ (emberSetIntensity x s).config = s.config
    ∧ (emberSetIntensity x s).positionsBuf = s.positionsBuf
    ∧ (emberSetIntensity x s).lifetimesBuf = s.lifetimesBuf
    ∧ (emberSetIntensity x s).sizesBuf = s.sizesBuf
    ∧ (emberSetIntensity x s).flickersBuf = s.flickersBuf
    ∧ (emberSetIntensity x s).spawnAccumulator = 0
    ∧ emberSetIntensity x s = emberSetIntensity y s :=
  ⟨rfl, rfl, rfl, rfl, rfl, rfl, rfl, rfl, rfl, rfl⟩

/-- C1: `EmberSystem.update` clamps its delta at `0.1` (any `deltaTime ≥ 0.1`
behaves exactly like `deltaTime = 0.1`), but `SmokeSystem.update` does not:
on a live particle rising at `0.3` units/s, a single call with
`deltaTime = 5` moves the particle 50 times as far vertically as the
clamp-bound step `deltaTime = 0.1` does (`1.4925` units instead of
`0.02985`), whatever the platform `sin` used for turbulence returns. -/
theorem dt_clamp_ember_vs_smoke :
    (∀ (M : JsMath) (rand : ℕ → ℚ) (deltaTime : ℚ) (s : EmberState),
       1/10 ≤ deltaTime → emberUpdate M rand deltaTime s = emberUpdate M rand (1/10) s)
    ∧ (∀ (M : JsMath) (rand : ℕ → ℚ),
        ((smokeUpdate M rand 5 smokeState1).1.particles.map fun p => p.position.y)
          = [597/400]
        ∧ ((smokeUpdate M rand (1/10) smokeState1).1.particles.map fun p => p.position.y)
          = [597/20000]
        ∧ (597/400 : ℚ) = 50 * (597/20000)) := by
  constructor
  · intro M rand deltaTime s h
    unfold emberUpdate
    rw [min_eq_right h, min_self]
  · intro M rand
    refine ⟨?_, ?_, by norm_num⟩
    · norm_num [smokeUpdate, smokeState1, smokeDefaultConfig, smokeP1,
        smokeParticleStep, spawnLoop, smokeNoise3D]
    · norm_num [smokeUpdate, smokeState1, smokeDefaultConfig, smokeP1,
        smokeParticleStep, spawnLoop, smokeNoise3D]

/-- Witness for C1 at concrete inputs. -/
theorem dt_clamp_ember_vs_smoke_witness :
    emberUpdate jsMath0 rand0 5 emberState0 = emberUpdate jsMath0 rand0 (1/10) emberState0
    ∧ ((smokeUpdate jsMath0 rand0 5 smokeState1).1.particles.map fun p => p.position.y)
        = [597/400] :=
  ⟨dt_clamp_ember_vs_smoke.1 jsMath0 rand0 5 emberState0 (by norm_num),
   (dt_clamp_ember_vs_smoke.2 jsMath0 rand0).1⟩

/-- C8: at normalized height `1.05` (world height `2.31 = 1.05 * 2.2`, past
the `smoothstep(0.2, 0.95, h)` top fade), the fire fragment alpha is `0` and
the fragment is discarded, for every intensity, radial distance and noise /
flicker sample (i.e. for all time, noise-scale and scroll-speed uniforms).
The only fact used about GLSL `pow` is `pow(0, 0.8) = 0`. -/
theorem fire_top_fade_alpha_zero (powf : ℚ → ℚ → ℚ)
    (n1 n2 n3 tipN sinF radial uInt : ℚ) (hpow : powf 0 (4/5) = 0) :
    fireFragAlpha powf n1 n2 n3 tipN sinF (231/100) radial uInt = 0
    ∧ fireFragDiscards powf n1 n2 n3 tipN sinF (231/100) radial uInt = true := by
  have hheight : fireHeight (231/100) = 1 := by
    norm_num [fireHeight, glslClamp]
  have hfade : fireHeightFade 1 = 0 := by
    norm_num [fireHeightFade, smoothstep, glslClamp]
  have hshape : ∀ fm tm : ℚ, fireFlameShape powf fm 0 tm = 0 := by
    intro fm tm
    rw [fireFlameShape]
    rw [show fm * 0 * tm = 0 by ring]
    exact hpow
  have halpha : fireFragAlpha powf n1 n2 n3 tipN sinF (231/100) radial uInt = 0 := by
    rw [fireFragAlpha, hheight, hfade, hshape]
    norm_num [glslClamp]
  refine ⟨halpha, ?_⟩
  simp only [fireFragDiscards, halpha]
  norm_num

/-- Witness for C8 at concrete inputs. -/
theorem fire_top_fade_alpha_zero_witness :
    ((fun _ _ => (0 : ℚ)) (0 : ℚ) (4/5 : ℚ) = 0)
    ∧ (fireFragAlpha (fun _ _ => 0) 0 0 0 0 0 (231/100) 0 1 = 0
       ∧ fireFragDiscards (fun _ _ => 0) 0 0 0 0 0 (231/100) 0 1 = true) :=
  ⟨rfl, fire_top_fade_alpha_zero (fun _ _ => 0) 0 0 0 0 0 0 1 rfl⟩

/-! ### Pool bookkeeping lemmas -/

theorem emberSpawnInto_length (f : EmberParticle → EmberParticle) (l : List EmberParticle) :
    (emberSpawnInto f l).length = l.length := by
  induction l with
  | nil => rfl
  | cons p rest ih => by_cases h : p.active <;> simp [emberSpawnInto, h, ih]

theorem smokeSpawnInto_length (f : SmokeParticle → SmokeParticle) (l : List SmokeParticle) :
    (smokeSpawnInto f l).length = l.length := by
  induction l with
  | nil => rfl
  | cons p rest ih => by_cases h : p.active <;> simp [smokeSpawnInto, h, ih]

theorem emberSpawnParticle_length (M : JsMath) (rand : ℕ → ℚ) (s : EmberState) :
    (emberSpawnParticle M rand s).particles.length = s.particles.length := by
  unfold emberSpawnParticle
  split
  · simp [emberSpawnInto_length]
  · rfl

theorem smokeSpawnParticle_length (M : JsMath) (rand : ℕ → ℚ) (s : SmokeState) :
    (smokeSpawnParticle M rand s).particles.length = s.particles.length := by
  unfold smokeSpawnParticle
  split
  · simp [smokeSpawnInto_length]
  · rfl

theorem spawnLoop_pool_inv {α : Type} (spawn : α → α) (P : α → Prop)
    (hP : ∀ a, P a → P (spawn a)) :
    ∀ (fuel : ℕ) (acc : ℚ) (pool : α), P pool → P (spawnLoop spawn fuel acc pool).2.1 := by
  intro fuel
  induction fuel with
  | zero => intro acc pool h; exact h
  | succ n ih =>
    intro acc pool h
    unfold spawnLoop
    split
    · exact ih (acc - 1) (spawn pool) (hP pool h)
    · exact h

theorem emberUpdate_particles_length (M : JsMath) (rand : ℕ → ℚ) (dt : ℚ) (s : EmberState) :
    (emberUpdate M rand dt s).1.particles.length = s.particles.length := by
  unfold emberUpdate
  simp only [emberUpdateBody, List.length_map]
  exact spawnLoop_pool_inv (emberSpawnParticle M rand)
    (fun st => st.particles.length = s.particles.length)
    (fun a ha => (emberSpawnParticle_length M rand a).trans ha) _ _ _ rfl

theorem smokeUpdate_particles_length (M : JsMath) (rand : ℕ → ℚ) (dt : ℚ) (s : SmokeState) :
    (smokeUpdate M rand dt s).1.particles.length = s.particles.length := by
  simp only [smokeUpdate, List.length_map]
  exact spawnLoop_pool_inv (smokeSpawnParticle M rand)
    (fun st => st.particles.length = s.particles.length)
    (fun a ha => (smokeSpawnParticle_length M rand a).trans ha) _ _ _ rfl

theorem applyEmberOps_length (M : JsMath) (rand : ℕ → ℚ) (ops : List PoolOp) :
    ∀ s : EmberState, (applyEmberOps M rand ops s).particles.length = s.particles.length := by
  induction ops with
  | nil => intro s; rfl
  | cons op rest ih =>
    intro s
    have h1 : (applyEmberOp M rand s op).particles.length = s.particles.length := by
      cases op with
      | spawn => exact emberSpawnParticle_length M rand s
      | update dt => exact emberUpdate_particles_length M rand dt s
    exact (ih (applyEmberOp M rand s op)).trans h1

theorem applySmokeOps_length (M : JsMath) (rand : ℕ → ℚ) (ops : List PoolOp) :
    ∀ s : SmokeState, (applySmokeOps M rand ops s).particles.length = s.particles.length := by
  induction ops with
  | nil => intro s; rfl
  | cons op rest ih =>
    intro s
    have h1 : (applySmokeOp M rand s op).particles.length = s.particles.length := by
      cases op with
      | spawn => exact smokeSpawnParticle_length M rand s
      | update dt => exact smokeUpdate_particles_length M rand dt s
    exact (ih (applySmokeOp M rand s op)).trans h1

theorem emberSpawnInto_countP (f : EmberParticle → EmberParticle)
    (hf : ∀ p, (f p).active = true) (l : List EmberParticle) :
    l.any (fun p => !p.active) = true →
      (emberSpawnInto f l).countP (fun p => p.active)
        = l.countP (fun p => p.active) + 1 := by
  induction l with
  | nil => intro h; simp at h
  | cons p rest ih =>
    intro h
    by_cases hp : p.active
    · have hr : rest.any (fun q => !q.active) = true := by
        simpa [hp] using h
      simp [emberSpawnInto, hp, List.countP_cons, ih hr]
    · simp [emberSpawnInto, hp, List.countP_cons, hf p]

theorem smokeSpawnInto_countP (f : SmokeParticle → SmokeParticle)
    (hf : ∀ p, (f p).active = true) (l : List SmokeParticle) :
    l.any (fun p => !p.active) = true →
      (smokeSpawnInto f l).countP (fun p => p.active)
        = l.countP (fun p => p.active) + 1 := by
  induction l with
  | nil => intro h; simp at h
  | cons p rest ih =>
    intro h
    by_cases hp : p.active
    · have hr : rest.any (fun q => !q.active) = true := by
        simpa [hp] using h
      simp [smokeSpawnInto, hp, List.countP_cons, ih hr]
    · simp [smokeSpawnInto, hp, List.countP_cons, hf p]

theorem ember_any_inactive_iff (s : EmberState) :
    s.particles.any (fun p => !p.active) = true
      ↔ emberActiveCount s < s.particles.length := by
  rw [emberActiveCount]
  constructor
  · intro h
    rcases List.any_eq_true.mp h with ⟨a, ha, hact⟩
    rcases lt_or_eq_of_le (List.countP_le_length (fun p => p.active) (l := s.particles)) with hlt | heq
    · exact hlt
    · have := List.countP_eq_length.mp heq a ha
      simp at hact
      simp [hact] at this
  · intro h
    by_contra hany
    have hall : ∀ a ∈ s.particles, a.active = true := by
      intro a ha
      have := List.any_eq_false.mp (Bool.eq_false_iff.mpr hany) a ha
      simpa using this
    have hlen : s.particles.countP (fun p => p.active) = s.particles.length :=
      List.countP_eq_length.mpr (by intro a ha; simpa using hall a ha)
    omega

theorem smoke_any_inactive_iff (s : SmokeState) :
    s.particles.any (fun p => !p.active) = true
      ↔ smokeActiveCount s < s.particles.length := by
  rw [smokeActiveCount]
  constructor
  · intro h
    rcases List.any_eq_true.mp h with ⟨a, ha, hact⟩
    rcases lt_or_eq_of_le (List.countP_le_length (fun p => p.active) (l := s.particles)) with hlt | heq
    · exact hlt
    · have := List.countP_eq_length.mp heq a ha
      simp at hact
      simp [hact] at this
  · intro h
    by_contra hany
    have hall : ∀ a ∈ s.particles, a.active = true := by
      intro a ha
      have := List.any_eq_false.mp (Bool.eq_false_iff.mpr hany) a ha
      simpa using this
    have hlen : s.particles.countP (fun p => p.active) = s.particles.length :=
      List.countP_eq_length.mpr (by intro a ha; simpa using hall a ha)
    omega

theorem emberActiveCount_le (s : EmberState) : emberActiveCount s ≤ s.particles.length := by
  unfold emberActiveCount
  exact List.countP_le_length _

theorem smokeActiveCount_le (s : SmokeState) : smokeActiveCount s ≤ s.particles.length := by
  unfold smokeActiveCount
  exact List.countP_le_length _

theorem emberSpawnParticle_activeCount (M : JsMath) (rand : ℕ → ℚ) (s : EmberState) :
    emberActiveCount (emberSpawnParticle M rand s)
      = if emberActiveCount s < s.particles.length
        then emberActiveCount s + 1 else emberActiveCount s := by
  by_cases h : s.particles.any (fun p => !p.active) = true
  · rw [if_pos ((ember_any_inactive_iff s).mp h)]
    unfold emberSpawnParticle
    rw [if_pos h]
    exact emberSpawnInto_countP _ (fun p => rfl) _ h
  · rw [if_neg (fun hlt => h ((ember_any_inactive_iff s).mpr hlt))]
    unfold emberSpawnParticle
    rw [if_neg h]

theorem smokeSpawnParticle_activeCount (M : JsMath) (rand : ℕ → ℚ) (s : SmokeState) :
    smokeActiveCount (smokeSpawnParticle M rand s)
      = if smokeActiveCount s < s.particles.length
        then smokeActiveCount s + 1 else smokeActiveCount s := by
  by_cases h : s.particles.any (fun p => !p.active) = true
  · rw [if_pos ((smoke_any_inactive_iff s).mp h)]
    unfold smokeSpawnParticle
    rw [if_pos h]
    exact smokeSpawnInto_countP _ (fun p => rfl) _ h
  · rw [if_neg (fun hlt => h ((smoke_any_inactive_iff s).mpr hlt))]
    unfold smokeSpawnParticle
    rw [if_neg h]

theorem emberSpawnIter_length (M : JsMath) (rand : ℕ → ℚ) :
    ∀ (n : ℕ) (s : EmberState),
      (((emberSpawnParticle M rand)^[n]) s).particles.length = s.particles.length := by
  intro n
  induction n with
  | zero => intro s; rfl
  | succ k ih =>
    intro s
    rw [Function.iterate_succ_apply', emberSpawnParticle_length, ih]

theorem smokeSpawnIter_length (M : JsMath) (rand : ℕ → ℚ) :
    ∀ (n : ℕ) (s : SmokeState),
      (((smokeSpawnParticle M rand)^[n]) s).particles.length = s.particles.length := by
  intro n
  induction n with
  | zero => intro s; rfl
  | succ k ih =>
    intro s
    rw [Function.iterate_succ_apply', smokeSpawnParticle_length, ih]

theorem emberSpawnIter_activeCount (M : JsMath) (rand : ℕ → ℚ) :
    ∀ (n : ℕ) (s : EmberState),
      emberActiveCount (((emberSpawnParticle M rand)^[n]) s)
        = min (emberActiveCount s + n) s.particles.length := by
  intro n
  induction n with
  | zero =>
    intro s
    have hle : emberActiveCount s ≤ s.particles.length := emberActiveCount_le s
    simp only [Function.iterate_zero, id]
    omega
  | succ k ih =>
    intro s
    rw [Function.iterate_succ_apply', emberSpawnParticle_activeCount, ih,
      emberSpawnIter_length]
    rcases Nat.lt_or_ge (emberActiveCount s + k) s.particles.length with h | h
    · rw [min_eq_left (Nat.le_of_lt h), if_pos h, min_eq_left (by omega)]
      omega
    · rw [min_eq_right h, if_neg (by omega), min_eq_right (by omega)]

theorem smokeSpawnIter_activeCount (M : JsMath) (rand : ℕ → ℚ) :
    ∀ (n : ℕ) (s : SmokeState),
      smokeActiveCount (((smokeSpawnParticle M rand)^[n]) s)
        = min (smokeActiveCount s + n) s.particles.length := by
  intro n
  induction n with
  | zero =>
    intro s
    have hle : smokeActiveCount s ≤ s.particles.length := smokeActiveCount_le s
    simp only [Function.iterate_zero, id]
    omega
  | succ k ih =>
    intro s
    rw [Function.iterate_succ_apply', smokeSpawnParticle_activeCount, ih,
      smokeSpawnIter_length]
    rcases Nat.lt_or_ge (smokeActiveCount s + k) s.particles.length with h | h
    · rw [min_eq_left (Nat.le_of_lt h), if_pos h, min_eq_left (by omega)]
      omega
    · rw [min_eq_right h, if_neg (by omega), min_eq_right (by omega)]

/-- C3: for either particle system with capacity `K` (the pool length), the
active count never exceeds `K` under any sequence of spawn attempts and
updates; a spawn attempt on a saturated pool is a silent no-op (state
unchanged, no randoms consumed); and `N` spawn attempts against an
all-inactive pool leave exactly `min N K` particles active. -/
theorem pool_capacity_invariant (M : JsMath) (rand : ℕ → ℚ)
    (sE : EmberState) (opsE : List PoolOp) (nE : ℕ)
    (sS : SmokeState) (opsS : List PoolOp) (nS : ℕ) :
    (emberActiveCount (applyEmberOps M rand opsE sE) ≤ sE.particles.length
     ∧ ((∀ p ∈ sE.particles, p.active = true) → emberSpawnParticle M rand sE = sE)
     ∧ ((∀ p ∈ sE.particles, p.active = false) →
         emberActiveCount (((emberSpawnParticle M rand)^[nE]) sE)
           = min nE sE.particles.length))
    ∧ (smokeActiveCount (applySmokeOps M rand opsS sS) ≤ sS.particles.length
     ∧ ((∀ p ∈ sS.particles, p.active = true) → smokeSpawnParticle M rand sS = sS)
     ∧ ((∀ p ∈ sS.particles, p.active = false) →
         smokeActiveCount (((smokeSpawnParticle M rand)^[nS]) sS)
           = min nS sS.particles.length)) := by
  refine ⟨⟨?_, ?_, ?_⟩, ?_, ?_, ?_⟩
  · calc emberActiveCount (applyEmberOps M rand opsE sE)
        ≤ (applyEmberOps M rand opsE sE).particles.length :=
          emberActiveCount_le _
      _ = sE.particles.length := applyEmberOps_length M rand opsE sE
  · intro hall
    have hany : sE.particles.any (fun p => !p.active) = false :=
      List.any_eq_false.mpr (by intro a ha; simp [hall a ha])
    unfold emberSpawnParticle
    rw [hany]
    rfl
  · intro hinact
    have h0 : emberActiveCount sE = 0 :=
      List.countP_eq_zero.mpr (by intro a ha; simp [hinact a ha])
    rw [emberSpawnIter_activeCount, h0, Nat.zero_add]
  · calc smokeActiveCount (applySmokeOps M rand opsS sS)
        ≤ (applySmokeOps M rand opsS sS).particles.length :=
          smokeActiveCount_le _
      _ = sS.particles.length := applySmokeOps_length M rand opsS sS
  · intro hall
    have hany : sS.particles.any (fun p => !p.active) = false :=
      List.any_eq_false.mpr (by intro a ha; simp [hall a ha])
    unfold smokeSpawnParticle
    rw [hany]
    rfl
  · intro hinact
    have h0 : smokeActiveCount sS = 0 :=
      List.countP_eq_zero.mpr (by intro a ha; simp [hinact a ha])
    rw [smokeSpawnIter_activeCount, h0, Nat.zero_add]

/-- Witness for C3 on concrete capacity-1 systems. -/
theorem pool_capacity_invariant_witness :
    emberActiveCount (applyEmberOps jsMath0 rand0 [PoolOp.spawn, PoolOp.update 1] emberStateFull) ≤ 1
    ∧ emberSpawnParticle jsMath0 rand0 emberStateFull = emberStateFull
    ∧ emberActiveCount (((emberSpawnParticle jsMath0 rand0)^[3]) emberStateIdle) = min 3 1
    ∧ smokeSpawnParticle jsMath0 rand0 smokeState1 = smokeState1
    ∧ smokeActiveCount (((smokeSpawnParticle jsMath0 rand0)^[3]) smokeStateIdle) = min 3 1 := by
  have h := pool_capacity_invariant jsMath0 rand0 emberStateFull
    [PoolOp.spawn, PoolOp.update 1] 3 smokeState1 [] 3
  have h2 := pool_capacity_invariant jsMath0 rand0 emberStateIdle [] 3 smokeStateIdle [] 3
  exact ⟨h.1.1, h.1.2.1 (by decide), h2.1.2.2 (by decide),
    h.2.2.1 (by decide), h2.2.2.2 (by decide)⟩

/-- C9: right after construction, `EmberSystem` has exactly
`Math.floor(count * 0.3)` active particles (the constructor's spawn burst) —
240 with the default `count = 800` — so the pool does not start all-inactive
for the default configuration. -/
theorem ember_initial_burst_active_count (M : JsMath) (rand : ℕ → ℚ) (cfg : EmberConfig) :
    emberActiveCount (emberInit M rand cfg) = emberInitialBurst cfg.count
    ∧ emberInitialBurst 800 = 240 := by
  constructor
  · have hburst : emberInitialBurst cfg.count ≤ cfg.count := by
      unfold emberInitialBurst
      have h1 : ((cfg.count : ℚ) * (3/10)) ≤ ((cfg.count : ℚ)) := by
        have : (0 : ℚ) ≤ (cfg.count : ℚ) := Nat.cast_nonneg _
        nlinarith
      have h2 : ⌊(cfg.count : ℚ) * (3/10)⌋ ≤ (cfg.count : ℤ) := by
        calc ⌊(cfg.count : ℚ) * (3/10)⌋ ≤ ⌊((cfg.count : ℚ))⌋ := Int.floor_le_floor h1
          _ = (cfg.count : ℤ) := Int.floor_natCast _
      exact Int.toNat_le.mpr h2
    unfold emberInit
    rw [emberSpawnIter_activeCount]
    have h0 : ((List.range cfg.count).map (emberInitParticle M rand)).countP
        (fun p => p.active) = 0 := by
      refine List.countP_eq_zero.mpr ?_
      intro a ha
      rcases List.mem_map.mp ha with ⟨i, _, rfl⟩
      simp [emberInitParticle]
    simp only [emberActiveCount]
    rw [h0, List.length_map, List.length_range, Nat.zero_add, min_eq_left hburst]
  · show Int.toNat ⌊(800 : ℚ) * (3/10)⌋ = 240
    norm_num
    rfl

/-- C4: life monotonicity.  For an active ember particle whose stored life is
consistent with its age (`1 - age/maxLife ≤ life`, an equality for every
particle the system ever spawns or updates), one update step with `dt > 0`
strictly decreases `life` (clamped linear decay `max 0 (1 - age'/maxLife)`),
and the particle is deactivated exactly when the new life is `≤ 0`.
Symmetrically, an active smoke particle's life strictly increases by
`lifeSpeed * dt`, and it is deactivated exactly when the new life is `≥ 1`. -/
theorem life_monotonicity (M : JsMath) (cfg : SmokeConfig)
    (dtE dtS noiseTime elapsed : ℚ) (p : EmberParticle) (q : SmokeParticle) :
    (p.active = true → 0 < dtE → 0 < p.maxLife → 0 < p.life →
       1 - p.age / p.maxLife ≤ p.life →
       (emberParticleStep M dtE noiseTime p).life < p.life
       ∧ (emberParticleStep M dtE noiseTime p).life
           = max 0 (1 - (p.age + dtE) / p.maxLife)
       ∧ ((emberParticleStep M dtE noiseTime p).life ≤ 0
            → (emberParticleStep M dtE noiseTime p).active = false)
       ∧ (0 < (emberParticleStep M dtE noiseTime p).life
            → (emberParticleStep M dtE noiseTime p).active = true))
    ∧ (q.active = true → 0 < dtS → 0 < q.lifeSpeed →
       q.life < (smokeParticleStep M cfg dtS elapsed q).life
       ∧ (smokeParticleStep M cfg dtS elapsed q).life = q.life + q.lifeSpeed * dtS
       ∧ (1 ≤ (smokeParticleStep M cfg dtS elapsed q).life
            → (smokeParticleStep M cfg dtS elapsed q).active = false)
       ∧ ((smokeParticleStep M cfg dtS elapsed q).life < 1
            → (smokeParticleStep M cfg dtS elapsed q).active = true)) := by
  constructor
  · intro hact hdt hml hlife hcons
    have hdiv : p.age / p.maxLife < (p.age + dtE) / p.maxLife :=
      (div_lt_div_iff_of_pos_right hml).mpr (by linarith)
    have hlt : 1 - (p.age + dtE) / p.maxLife < p.life := by linarith
    have hlifeval : (emberParticleStep M dtE noiseTime p).life
        = max 0 (1 - (p.age + dtE) / p.maxLife) := by
      by_cases hd : max 0 (1 - (p.age + dtE) / p.maxLife) ≤ 0 <;>
        simp [emberParticleStep, hact, hd]
    refine ⟨?_, hlifeval, ?_, ?_⟩
    · rw [hlifeval]
      exact max_lt hlife hlt
    · intro h0
      rw [hlifeval] at h0
      simp [emberParticleStep, hact, h0]
    · intro h0
      rw [hlifeval] at h0
      simp [emberParticleStep, hact, not_le.mpr h0, hact]
  · intro hact hdt hls
    have hgrow : q.life < q.life + q.lifeSpeed * dtS := by nlinarith
    have hlifeval : (smokeParticleStep M cfg dtS elapsed q).life
        = q.life + q.lifeSpeed * dtS := by
      by_cases hd : (1 : ℚ) ≤ q.life + q.lifeSpeed * dtS <;>
        simp [smokeParticleStep, hact, hd]
    refine ⟨?_, hlifeval, ?_, ?_⟩
    · rw [hlifeval]
      exact hgrow
    · intro h1
      rw [hlifeval] at h1
      simp [smokeParticleStep, hact, h1]
    · intro h1
      rw [hlifeval] at h1
      simp [smokeParticleStep, hact, not_le.mpr h1, hact]

/-- Witness for C4 on concrete particles. -/
theorem life_monotonicity_witness :
    ((emberParticleStep jsMath0 1 0 emberPActive).life < emberPActive.life
      ∧ (emberParticleStep jsMath0 1 0 emberPActive).life
          = max 0 (1 - (emberPActive.age + 1) / emberPActive.maxLife)
      ∧ ((emberParticleStep jsMath0 1 0 emberPActive).life ≤ 0
           → (emberParticleStep jsMath0 1 0 emberPActive).active = false)
      ∧ (0 < (emberParticleStep jsMath0 1 0 emberPActive).life
           → (emberParticleStep jsMath0 1 0 emberPActive).active = true))
    ∧ (smokeP1.life < (smokeParticleStep jsMath0 smokeDefaultConfig 1 0 smokeP1).life
      ∧ (smokeParticleStep jsMath0 smokeDefaultConfig 1 0 smokeP1).life
          = smokeP1.life + smokeP1.lifeSpeed * 1
      ∧ (1 ≤ (smokeParticleStep jsMath0 smokeDefaultConfig 1 0 smokeP1).life
           → (smokeParticleStep jsMath0 smokeDefaultConfig 1 0 smokeP1).active = false)
      ∧ ((smokeParticleStep jsMath0 smokeDefaultConfig 1 0 smokeP1).life < 1
           → (smokeParticleStep jsMath0 smokeDefaultConfig 1 0 smokeP1).active = true)) :=
  ⟨(life_monotonicity jsMath0 smokeDefaultConfig 1 1 0 0 emberPActive smokeP1).1
      rfl (by norm_num) (by norm_num [emberPActive, emberPInactive])
      (by norm_num [emberPActive, emberPInactive])
      (by norm_num [emberPActive, emberPInactive]),
   (life_monotonicity jsMath0 smokeDefaultConfig 1 1 0 0 emberPActive smokeP1).2
      rfl (by norm_num) (by norm_num [smokeP1])⟩

/-! ### Spawn accumulator lemmas -/

theorem spawnLoop_spec {α : Type} (spawn : α → α) :
    ∀ (fuel : ℕ) (acc : ℚ) (pool : α), 0 ≤ acc → Int.toNat ⌊acc⌋ ≤ fuel →
      (spawnLoop spawn fuel acc pool).1 = acc - ⌊acc⌋
      ∧ (spawnLoop spawn fuel acc pool).2.2 = Int.toNat ⌊acc⌋ := by
  intro fuel
  induction fuel with
  | zero =>
    intro acc pool h0 hf
    have h1 : 0 ≤ ⌊acc⌋ := Int.floor_nonneg.mpr h0
    have hfl : ⌊acc⌋ = 0 := by omega
    unfold spawnLoop
    rw [hfl]
    norm_num
  | succ n ih =>
    intro acc pool h0 hf
    by_cases hge : 1 ≤ acc
    · have h0' : 0 ≤ acc - 1 := by linarith
      have hfl : ⌊acc - 1⌋ = ⌊acc⌋ - 1 := by
        have := Int.floor_sub_int acc 1
        push_cast at this
        simpa using this
      have h1 : 1 ≤ ⌊acc⌋ := by
        exact Int.le_floor.mpr (by exact_mod_cast hge)
      have hok : Int.toNat ⌊acc - 1⌋ ≤ n := by
        rw [hfl]
        omega
      have hr := ih (acc - 1) (spawn pool) h0' hok
      unfold spawnLoop
      rw [if_pos hge]
      refine ⟨?_, ?_⟩
      · show (spawnLoop spawn n (acc - 1) (spawn pool)).1 = acc - ⌊acc⌋
        rw [hr.1, hfl]
        push_cast
        ring
      · show (spawnLoop spawn n (acc - 1) (spawn pool)).2.2 + 1 = Int.toNat ⌊acc⌋
        rw [hr.2, hfl]
        omega
    · have h1 : acc < 1 := not_le.mp hge
      have hfl : ⌊acc⌋ = 0 := Int.floor_eq_zero_iff.mpr ⟨h0, h1⟩
      unfold spawnLoop
      rw [if_neg hge, hfl]
      norm_num

theorem emberSpawnParticle_config (M : JsMath) (rand : ℕ → ℚ) (s : EmberState) :
    (emberSpawnParticle M rand s).config = s.config := by
  unfold emberSpawnParticle
  split <;> rfl

theorem smokeSpawnParticle_config (M : JsMath) (rand : ℕ → ℚ) (s : SmokeState) :
    (smokeSpawnParticle M rand s).config = s.config := by
  unfold smokeSpawnParticle
  split <;> rfl

theorem emberUpdate_spawn_spec (M : JsMath) (rand : ℕ → ℚ) (dt : ℚ) (s : EmberState)
    (h0 : 0 ≤ s.spawnAccumulator + min dt (1/10) * s.config.spawnRate) :
    (emberUpdate M rand dt s).1.spawnAccumulator
      = (s.spawnAccumulator + min dt (1/10) * s.config.spawnRate)
        - ⌊s.spawnAccumulator + min dt (1/10) * s.config.spawnRate⌋
    ∧ (emberUpdate M rand dt s).2
      = Int.toNat ⌊s.spawnAccumulator + min dt (1/10) * s.config.spawnRate⌋
    ∧ (emberUpdate M rand dt s).1.config = s.config := by
  have hs := spawnLoop_spec (emberSpawnParticle M rand)
    (Int.toNat ⌊s.spawnAccumulator + min dt (1/10) * s.config.spawnRate⌋)
    (s.spawnAccumulator + min dt (1/10) * s.config.spawnRate)
    ({ s with noiseTime := s.noiseTime + min dt (1/10),
              uTime := s.uTime + min dt (1/10) } : EmberState)
    h0 le_rfl
  have hc := spawnLoop_pool_inv (emberSpawnParticle M rand)
    (fun st => st.config = s.config)
    (fun a ha => (emberSpawnParticle_config M rand a).trans ha)
    (Int.toNat ⌊s.spawnAccumulator + min dt (1/10) * s.config.spawnRate⌋)
    (s.spawnAccumulator + min dt (1/10) * s.config.spawnRate)
    ({ s with noiseTime := s.noiseTime + min dt (1/10),
              uTime := s.uTime + min dt (1/10) } : EmberState)
    rfl
  simp only [emberUpdate, emberUpdateBody]
  exact ⟨hs.1, hs.2, hc⟩

theorem smokeUpdate_spawn_spec (M : JsMath) (rand : ℕ → ℚ) (dt : ℚ) (s : SmokeState)
    (h0 : 0 ≤ s.spawnAccumulator + dt * s.config.spawnRate) :
    (smokeUpdate M rand dt s).1.spawnAccumulator
      = (s.spawnAccumulator + dt * s.config.spawnRate)
        - ⌊s.spawnAccumulator + dt * s.config.spawnRate⌋
    ∧ (smokeUpdate M rand dt s).2
      = Int.toNat ⌊s.spawnAccumulator + dt * s.config.spawnRate⌋
    ∧ (smokeUpdate M rand dt s).1.config = s.config := by
  have hs := spawnLoop_spec (smokeSpawnParticle M rand)
    (Int.toNat ⌊s.spawnAccumulator + dt * s.config.spawnRate⌋)
    (s.spawnAccumulator + dt * s.config.spawnRate)
    ({ s with elapsedTime := s.elapsedTime + dt,
              uTime := s.elapsedTime + dt } : SmokeState)
    h0 le_rfl
  have hc := spawnLoop_pool_inv (smokeSpawnParticle M rand)
    (fun st => st.config = s.config)
    (fun a ha => (smokeSpawnParticle_config M rand a).trans ha)
    (Int.toNat ⌊s.spawnAccumulator + dt * s.config.spawnRate⌋)
    (s.spawnAccumulator + dt * s.config.spawnRate)
    ({ s with elapsedTime := s.elapsedTime + dt,
              uTime := s.elapsedTime + dt } : SmokeState)
    rfl
  simp only [smokeUpdate]
  exact ⟨hs.1, hs.2, hc⟩

theorem emberRunUpdates_spec (M : JsMath) (rand : ℕ → ℚ) :
    ∀ (dts : List ℚ) (s : EmberState),
      0 ≤ s.spawnAccumulator → s.spawnAccumulator < 1 → 0 ≤ s.config.spawnRate →
      (∀ dt ∈ dts, 0 ≤ dt) →
      ((emberRunUpdates M rand dts s).2 : ℚ)
          + (emberRunUpdates M rand dts s).1.spawnAccumulator
        = s.spawnAccumulator
          + s.config.spawnRate * (dts.map (fun dt => min dt (1/10))).sum
      ∧ 0 ≤ (emberRunUpdates M rand dts s).1.spawnAccumulator
      ∧ (emberRunUpdates M rand dts s).1.spawnAccumulator < 1 := by
  intro dts
  induction dts with
  | nil =>
    intro s h0 h1 _ _
    exact ⟨by simp [emberRunUpdates], h0, h1⟩
  | cons dt rest ih =>
    intro s h0 h1 hr hdts
    have hdt0 : 0 ≤ dt := hdts dt (List.mem_cons_self _ _)
    have hmin0 : 0 ≤ min dt (1/10 : ℚ) := le_min hdt0 (by norm_num)
    have ha0 : 0 ≤ s.spawnAccumulator + min dt (1/10) * s.config.spawnRate :=
      add_nonneg h0 (mul_nonneg hmin0 hr)
    have hu := emberUpdate_spawn_spec M rand dt s ha0
    have hacc0 : 0 ≤ (emberUpdate M rand dt s).1.spawnAccumulator := by
      rw [hu.1]
      have := Int.floor_le (s.spawnAccumulator + min dt (1/10) * s.config.spawnRate)
      linarith
    have hacc1 : (emberUpdate M rand dt s).1.spawnAccumulator < 1 := by
      rw [hu.1]
      have := Int.lt_floor_add_one (s.spawnAccumulator + min dt (1/10) * s.config.spawnRate)
      linarith
    have hrate : 0 ≤ (emberUpdate M rand dt s).1.config.spawnRate := by
      rw [hu.2.2]
      exact hr
    have hrest := ih (emberUpdate M rand dt s).1 hacc0 hacc1 hrate
      (fun d hd => hdts d (List.mem_cons_of_mem _ hd))
    have hcount : ((emberUpdate M rand dt s).2 : ℚ)
        = (⌊s.spawnAccumulator + min dt (1/10) * s.config.spawnRate⌋ : ℚ) := by
      rw [hu.2.1]
      have hfl0 : 0 ≤ ⌊s.spawnAccumulator + min dt (1/10) * s.config.spawnRate⌋ :=
        Int.floor_nonneg.mpr ha0
      exact_mod_cast Int.toNat_of_nonneg hfl0
    refine ⟨?_, hrest.2.1, hrest.2.2⟩
    simp only [emberRunUpdates]
    have hrestsum := hrest.1
    rw [hu.2.2, hu.1] at hrestsum
    push_cast
    rw [hcount]
    simp only [List.map_cons, List.sum_cons]
    linarith [hrestsum]

theorem smokeRunUpdates_spec (M : JsMath) (rand : ℕ → ℚ) :
    ∀ (dts : List ℚ) (s : SmokeState),
      0 ≤ s.spawnAccumulator → s.spawnAccumulator < 1 → 0 ≤ s.config.spawnRate →
      (∀ dt ∈ dts, 0 ≤ dt) →
      ((smokeRunUpdates M rand dts s).2 : ℚ)
          + (smokeRunUpdates M rand dts s).1.spawnAccumulator
        = s.spawnAccumulator + s.config.spawnRate * dts.sum
      ∧ 0 ≤ (smokeRunUpdates M rand dts s).1.spawnAccumulator
      ∧ (smokeRunUpdates M rand dts s).1.spawnAccumulator < 1 := by
  intro dts
  induction dts with
  | nil =>
    intro s h0 h1 _ _
    exact ⟨by simp [smokeRunUpdates], h0, h1⟩
  | cons dt rest ih =>
    intro s h0 h1 hr hdts
    have hdt0 : 0 ≤ dt := hdts dt (List.mem_cons_self _ _)
    have ha0 : 0 ≤ s.spawnAccumulator + dt * s.config.spawnRate :=
      add_nonneg h0 (mul_nonneg hdt0 hr)
    have hu := smokeUpdate_spawn_spec M rand dt s ha0
    have hacc0 : 0 ≤ (smokeUpdate M rand dt s).1.spawnAccumulator := by
      rw [hu.1]
      have := Int.floor_le (s.spawnAccumulator + dt * s.config.spawnRate)
      linarith
    have hacc1 : (smokeUpdate M rand dt s).1.spawnAccumulator < 1 := by
      rw [hu.1]
      have := Int.lt_floor_add_one (s.spawnAccumulator + dt * s.config.spawnRate)
      linarith
    have hrate : 0 ≤ (smokeUpdate M rand dt s).1.config.spawnRate := by
      rw [hu.2.2]
      exact hr
    have hrest := ih (smokeUpdate M rand dt s).1 hacc0 hacc1 hrate
      (fun d hd => hdts d (List.mem_cons_of_mem _ hd))
    have hcount : ((smokeUpdate M rand dt s).2 : ℚ)
        = (⌊s.spawnAccumulator + dt * s.config.spawnRate⌋ : ℚ) := by
      rw [hu.2.1]
      have hfl0 : 0 ≤ ⌊s.spawnAccumulator + dt * s.config.spawnRate⌋ :=
        Int.floor_nonneg.mpr ha0
      exact_mod_cast Int.toNat_of_nonneg hfl0
    refine ⟨?_, hrest.2.1, hrest.2.2⟩
    simp only [smokeRunUpdates]
    have hrestsum := hrest.1
    rw [hu.2.2, hu.1] at hrestsum
    push_cast
    rw [hcount]
    simp only [List.sum_cons]
    linarith [hrestsum]

theorem emberRunUpdates_count (M : JsMath) (rand : ℕ → ℚ) (dts : List ℚ)
    (s : EmberState) (h0 : s.spawnAccumulator = 0) (hr : 0 ≤ s.config.spawnRate)
    (hdts : ∀ dt ∈ dts, 0 ≤ dt) :
    ((emberRunUpdates M rand dts s).2 : ℤ)
      = ⌊s.config.spawnRate * (dts.map (fun dt => min dt (1/10))).sum⌋ := by
  have h := emberRunUpdates_spec M rand dts s (by rw [h0]) (by rw [h0]; norm_num) hr hdts
  have hsum := h.1
  rw [h0] at hsum
  symm
  rw [Int.floor_eq_iff]
  constructor
  · push_cast
    linarith [h.2.2]
  · push_cast
    linarith [h.2.1]

theorem smokeRunUpdates_count (M : JsMath) (rand : ℕ → ℚ) (dts : List ℚ)
    (s : SmokeState) (h0 : s.spawnAccumulator = 0) (hr : 0 ≤ s.config.spawnRate)
    (hdts : ∀ dt ∈ dts, 0 ≤ dt) :
    ((smokeRunUpdates M rand dts s).2 : ℤ) = ⌊s.config.spawnRate * dts.sum⌋ := by
  have h := smokeRunUpdates_spec M rand dts s (by rw [h0]) (by rw [h0]; norm_num) hr hdts
  have hsum := h.1
  rw [h0] at hsum
  symm
  rw [Int.floor_eq_iff]
  constructor
  · push_cast
    linarith [h.2.2]
  · push_cast
    linarith [h.2.1]

theorem map_min_clamp_eq (dts : List ℚ) (h : ∀ dt ∈ dts, dt ≤ 1/10) :
    dts.map (fun dt => min dt (1/10)) = dts := by
  induction dts with
  | nil => rfl
  | cons d rest ih =>
    have hd : min d (1/10 : ℚ) = d := min_eq_left (h d (List.mem_cons_self _ _))
    simp only [List.map_cons, hd, ih (fun x hx => h x (List.mem_cons_of_mem _ hx))]

/-- C2 (amended): starting from a zero accumulator, driving either system's
accumulator-based spawn loop with per-call deltas `dt` that are nonnegative
and — for the ember system, whose `update` clamps each delta at `0.1` — at
most `0.1`, the total number of spawn calls is exactly `⌊R * T⌋` where `T` is
the sum of the deltas, hence within ±1 of `R * T`; in particular the count
depends only on the sum `T`, not on how it is partitioned into update calls.
For the smoke system (no clamp) this holds for arbitrary nonnegative deltas. -/
theorem spawn_rate_convergence_amended (M : JsMath) (rand : ℕ → ℚ)
    (sE : EmberState) (sS : SmokeState) (dtsE dtsS : List ℚ)
    (hE0 : sE.spawnAccumulator = 0) (hER : 0 ≤ sE.config.spawnRate)
    (hEdts : ∀ dt ∈ dtsE, 0 ≤ dt ∧ dt ≤ 1/10)
    (hS0 : sS.spawnAccumulator = 0) (hSR : 0 ≤ sS.config.spawnRate)
    (hSdts : ∀ dt ∈ dtsS, 0 ≤ dt) :
    ((emberRunUpdates M rand dtsE sE).2 : ℤ) = ⌊sE.config.spawnRate * dtsE.sum⌋
    ∧ |((emberRunUpdates M rand dtsE sE).2 : ℚ) - sE.config.spawnRate * dtsE.sum| ≤ 1
    ∧ (∀ dts2 : List ℚ, (∀ dt ∈ dts2, 0 ≤ dt ∧ dt ≤ 1/10) → dts2.sum = dtsE.sum →
        (emberRunUpdates M rand dts2 sE).2 = (emberRunUpdates M rand dtsE sE).2)
    ∧ ((smokeRunUpdates M rand dtsS sS).2 : ℤ) = ⌊sS.config.spawnRate * dtsS.sum⌋
    ∧ |((smokeRunUpdates M rand dtsS sS).2 : ℚ) - sS.config.spawnRate * dtsS.sum| ≤ 1
    ∧ (∀ dts2 : List ℚ, (∀ dt ∈ dts2, 0 ≤ dt) → dts2.sum = dtsS.sum →
        (smokeRunUpdates M rand dts2 sS).2 = (smokeRunUpdates M rand dtsS sS).2) := by
  have hEcount : ∀ dts : List ℚ, (∀ dt ∈ dts, 0 ≤ dt ∧ dt ≤ 1/10) →
      ((emberRunUpdates M rand dts sE).2 : ℤ) = ⌊sE.config.spawnRate * dts.sum⌋ := by
    intro dts h
    have := emberRunUpdates_count M rand dts sE hE0 hER (fun dt hdt => (h dt hdt).1)
    rwa [map_min_clamp_eq dts (fun dt hdt => (h dt hdt).2)] at this
  have hE1 := hEcount dtsE hEdts
  have hS1 := smokeRunUpdates_count M rand dtsS sS hS0 hSR hSdts
  have habsE : |((emberRunUpdates M rand dtsE sE).2 : ℚ)
      - sE.config.spawnRate * dtsE.sum| ≤ 1 := by
    have hle := Int.floor_le (sE.config.spawnRate * dtsE.sum)
    have hlt := Int.lt_floor_add_one (sE.config.spawnRate * dtsE.sum)
    have hcast : ((emberRunUpdates M rand dtsE sE).2 : ℚ)
        = ((⌊sE.config.spawnRate * dtsE.sum⌋ : ℤ) : ℚ) := by
      exact_mod_cast congrArg (fun z : ℤ => (z : ℚ)) hE1
    rw [hcast]
    rw [abs_le]
    constructor <;> linarith
  have habsS : |((smokeRunUpdates M rand dtsS sS).2 : ℚ)
      - sS.config.spawnRate * dtsS.sum| ≤ 1 := by
    have hle := Int.floor_le (sS.config.spawnRate * dtsS.sum)
    have hlt := Int.lt_floor_add_one (sS.config.spawnRate * dtsS.sum)
    have hcast : ((smokeRunUpdates M rand dtsS sS).2 : ℚ)
        = ((⌊sS.config.spawnRate * dtsS.sum⌋ : ℤ) : ℚ) := by
      exact_mod_cast congrArg (fun z : ℤ => (z : ℚ)) hS1
    rw [hcast]
    rw [abs_le]
    constructor <;> linarith
  refine ⟨hE1, habsE, ?_, hS1, habsS, ?_⟩
  · intro dts2 h2 hsum
    have hc2 := hEcount dts2 h2
    rw [hsum] at hc2
    exact_mod_cast hc2.trans hE1.symm
  · intro dts2 h2 hsum
    have hc2 := smokeRunUpdates_count M rand dts2 sS hS0 hSR h2
    rw [hsum] at hc2
    exact_mod_cast hc2.trans hS1.symm

/-- Witness for C2 (amended) at concrete inputs. -/
theorem spawn_rate_convergence_amended_witness :
    ((emberRunUpdates jsMath0 rand0 [1/10] emberState0).2 : ℤ)
        = ⌊emberState0.config.spawnRate * ([(1/10 : ℚ)]).sum⌋
    ∧ ((smokeRunUpdates jsMath0 rand0 [2] smokeState0).2 : ℤ)
        = ⌊smokeState0.config.spawnRate * ([(2 : ℚ)]).sum⌋ := by
  have h := spawn_rate_convergence_amended jsMath0 rand0 emberState0 smokeState0
    [1/10] [2] rfl (by norm_num [emberState0, emberDefaultConfig])
    (by intro dt hdt; rw [List.mem_singleton] at hdt; subst hdt; norm_num)
    rfl (by norm_num [smokeState0, smokeDefaultConfig])
    (by intro dt hdt; rw [List.mem_singleton] at hdt; subst hdt; norm_num)
  exact ⟨h.1, h.2.2.2.1⟩

/-- C2 counterexample to the claim as stated: with the default ember spawn
rate `R = 60` and total time `T = 5`, one `update(5)` call spawns only 6
particles (the ember system clamps the delta at `0.1`), while fifty
`update(0.1)` calls spawn 300; the single-call count is neither equal to the
many-call count nor within ±1 of `R * T = 300`. -/
theorem spawn_count_partition_dependent_cex :
    (emberRunUpdates jsMath0 rand0 [5] emberState0).2 = 6
    ∧ (emberRunUpdates jsMath0 rand0 (List.replicate 50 (1/10)) emberState0).2 = 300
    ∧ (List.replicate 50 (1/10 : ℚ)).sum = 5
    ∧ (emberRunUpdates jsMath0 rand0 [5] emberState0).2
        ≠ (emberRunUpdates jsMath0 rand0 (List.replicate 50 (1/10)) emberState0).2
    ∧ ¬(|((emberRunUpdates jsMath0 rand0 [5] emberState0).2 : ℚ)
          - emberState0.config.spawnRate * ([(5 : ℚ)]).sum| ≤ 1) := by
  have hrate : emberState0.config.spawnRate = 60 := rfl
  have h1 : ((emberRunUpdates jsMath0 rand0 [5] emberState0).2 : ℤ) = 6 := by
    have h := emberRunUpdates_count jsMath0 rand0 [5] emberState0 rfl
      (by norm_num [hrate])
      (by intro dt hdt; rw [List.mem_singleton] at hdt; subst hdt; norm_num)
    rw [h, hrate]
    rw [show ([(5 : ℚ)].map (fun dt => min dt (1/10))) = [(1/10 : ℚ)] by
      simp only [List.map_cons, List.map_nil]
      rw [min_eq_right (by norm_num : (1/10 : ℚ) ≤ 5)]]
    norm_num
  have h1n : (emberRunUpdates jsMath0 rand0 [5] emberState0).2 = 6 := by
    exact_mod_cast h1
  have hsum : (List.replicate 50 (1/10 : ℚ)).sum = 5 := by
    rw [List.sum_replicate]
    norm_num
  have h2 : ((emberRunUpdates jsMath0 rand0 (List.replicate 50 (1/10)) emberState0).2 : ℤ)
      = 300 := by
    have h := emberRunUpdates_count jsMath0 rand0 (List.replicate 50 (1/10)) emberState0 rfl
      (by norm_num [hrate])
      (by intro dt hdt; rw [List.eq_of_mem_replicate hdt]; norm_num)
    rw [h, hrate]
    rw [show ((List.replicate 50 (1/10 : ℚ)).map (fun dt => min dt (1/10)))
        = List.replicate 50 (1/10 : ℚ) by simp [List.map_replicate]]
    rw [hsum]
    norm_num
  have h2n : (emberRunUpdates jsMath0 rand0 (List.replicate 50 (1/10)) emberState0).2 = 300 := by
    exact_mod_cast h2
  refine ⟨h1n, h2n, hsum, ?_, ?_⟩
  · rw [h1n, h2n]
    norm_num
  · rw [h1n, hrate]
    norm_num

/-! ### Rock generator theorems -/

/-- C6: `createRockRing` with a provided seed is a deterministic function of
its options — the result (placements, rotations, scales and displaced vertex
arrays) is independent of the prior module-level noise state (which the call
reseeds) and of the clock (`Date.now()` is only consulted when no seed is
given), so two invocations with the same options produce identical output. -/
theorem rock_ring_deterministic (M : JsMath) (now1 now2 : ℤ) (st1 st2 : NoiseState)
    (opts : RockRingOptions) (baseVerts : List Vec3) (sv : ℤ)
    (h : opts.seed = some sv) :
    createRockRing M now1 st1 opts baseVerts = createRockRing M now2 st2 opts baseVerts := by
  unfold createRockRing
  rw [h]
  rfl

/-- Witness for C6: two calls from different noise states and clock values. -/
theorem rock_ring_deterministic_witness :
    ringOpts42.seed = some 42
    ∧ createRockRing jsMath0 0 noiseStA ringOpts42 []
        = createRockRing jsMath0 99 noiseStB ringOpts42 [] :=
  ⟨rfl, rock_ring_deterministic jsMath0 0 99 noiseStA noiseStB ringOpts42 [] 42 rfl⟩

theorem prime_2147483647 : Nat.Prime 2147483647 := by
  have h : (2147483647 : ℕ) = mersenne 31 := by norm_num [mersenne]
  rw [h]
  exact lucas_lehmer_sufficiency _ (by norm_num) (by norm_num)

theorem lcg_mem (r : ℤ) (h1 : 1 ≤ r) (h2 : r ≤ 2147483646) :
    1 ≤ lcg r ∧ lcg r ≤ 2147483646 := by
  unfold lcg
  have hnn : 0 ≤ r * 16807 := mul_nonneg (by linarith) (by norm_num)
  have hge : 0 ≤ Int.tmod (r * 16807) 2147483647 := Int.tmod_nonneg _ hnn
  have hlt : Int.tmod (r * 16807) 2147483647 < 2147483647 :=
    Int.tmod_lt_of_pos _ (by norm_num)
  have hne : Int.tmod (r * 16807) 2147483647 ≠ 0 := by
    intro h0
    have hdvd : (2147483647 : ℤ) ∣ r * 16807 := Int.dvd_of_tmod_eq_zero h0
    have hp : Prime (2147483647 : ℤ) := Nat.prime_iff_prime_int.mp prime_2147483647
    rcases hp.dvd_mul.mp hdvd with hdr | hd16
    · have := Int.le_of_dvd (by linarith) hdr
      linarith
    · have := Int.le_of_dvd (by norm_num) hd16
      linarith
  omega

theorem lcgVal_mem (r : ℤ) (h1 : 1 ≤ r) (h2 : r ≤ 2147483646) :
    0 ≤ lcgVal r ∧ lcgVal r < 1 := by
  have hc1 : (1 : ℚ) ≤ (r : ℚ) := by exact_mod_cast h1
  have hc2 : (r : ℚ) ≤ 2147483646 := by exact_mod_cast h2
  unfold lcgVal
  constructor
  · apply div_nonneg _ (by norm_num)
    linarith
  · rw [div_lt_one (by norm_num)]
    linarith

theorem rockRingGo_radius_mem (M : JsMath) (count : ℕ) (minScale maxScale : ℚ)
    (baseVerts : List Vec3) :
    ∀ (idxs : List ℕ) (rs : ℤ) (ns : NoiseState),
      1 ≤ rs → rs ≤ 2147483646 →
      ∀ item ∈ (rockRingGo M count (7/5) (9/5) minScale maxScale baseVerts idxs rs ns).1,
        7/5 ≤ item.radius ∧ item.radius ≤ 9/5 := by
  intro idxs
  induction idxs with
  | nil =>
    intro rs ns h1 h2 item hitem
    simp [rockRingGo] at hitem
  | cons i rest ih =>
    intro rs ns h1 h2 item hitem
    have m1 := lcg_mem rs h1 h2
    have m2 := lcg_mem _ m1.1 m1.2
    have m3 := lcg_mem _ m2.1 m2.2
    have m4 := lcg_mem _ m3.1 m3.2
    have m5 := lcg_mem _ m4.1 m4.2
    have m6 := lcg_mem _ m5.1 m5.2
    have m7 := lcg_mem _ m6.1 m6.2
    have m8 := lcg_mem _ m7.1 m7.2
    have m9 := lcg_mem _ m8.1 m8.2
    have m10 := lcg_mem _ m9.1 m9.2
    have m11 := lcg_mem _ m10.1 m10.2
    have m12 := lcg_mem _ m11.1 m11.2
    simp only [rockRingGo] at hitem
    rcases List.mem_cons.mp hitem with heq | hmem
    · have hv := lcgVal_mem _ m2.1 m2.2
      subst heq
      constructor
      · show (7/5 : ℚ) ≤ 7/5 + lcgVal (lcg (lcg rs)) * (9/5 - 7/5)
        nlinarith [hv.1, hv.2]
      · show (7/5 : ℚ) + lcgVal (lcg (lcg rs)) * (9/5 - 7/5) ≤ 9/5
        nlinarith [hv.1, hv.2]
    · exact ih _ _ m12.1 m12.2 item hmem

/-- C7 (amended): for every count and every ring seed in `[1, 2147483646]`
(the nondegenerate range of the seeded LCG), each rock's placement radius
with `innerRadius = 1.4`, `outerRadius = 1.8` lies within `[1.4, 1.8]`. -/
theorem rock_ring_radius_in_band_amended (M : JsMath) (now : ℤ) (st : NoiseState)
    (opts : RockRingOptions) (baseVerts : List Vec3) (sv : ℤ)
    (hseed : opts.seed = some sv) (h1 : 1 ≤ sv) (h2 : sv ≤ 2147483646)
    (hinner : opts.innerRadius = some (7/5)) (houter : opts.outerRadius = some (9/5)) :
    ∀ item ∈ (createRockRing M now st opts baseVerts).1,
      7/5 ≤ item.radius ∧ item.radius ≤ 9/5 := by
  intro item hitem
  unfold createRockRing at hitem
  rw [hseed, hinner, houter] at hitem
  simp only [Option.getD_some] at hitem
  exact rockRingGo_radius_mem M _ _ _ _ _ _ _ h1 h2 item hitem

/-- Witness for C7 (amended) at seed 42. -/
theorem rock_ring_radius_in_band_amended_witness :
    (createRockRing jsMath0 0 noiseStA ringOpts42 []).1.Forall
      (fun item => 7/5 ≤ item.radius ∧ item.radius ≤ 9/5) :=
  List.forall_iff_forall_mem.mpr
    (rock_ring_radius_in_band_amended jsMath0 0 noiseStA ringOpts42 [] 42 rfl
      (by norm_num) (by norm_num) rfl rfl)

/-- C7 counterexample to the claim as stated ("any seed"): with seed 0 the
ring's LCG is stuck at 0, `seededRandom()` returns `-1/2147483646 < 0`, and
the single rock's placement radius is `1.4 - 1/5368709115 < 1.4`, outside
the `[1.4, 1.8]` band. -/
theorem rock_ring_radius_cex :
    ((createRockRing jsMath0 0 noiseStA ringOpts0 []).1.map (fun item => item.radius))
      = [7/5 - 1/5368709115]
    ∧ ¬((7/5 : ℚ) ≤ 7/5 - 1/5368709115) := by
  constructor
  · have hlcg0 : lcg 0 = 0 := by
      unfold lcg
      norm_num
    have hval : lcgVal 0 = -1/2147483646 := by
      unfold lcgVal
      norm_num
    simp only [createRockRing, ringOpts0, Option.getD_some, List.range_succ, List.range_zero, List.nil_append,
      rockRingGo, hlcg0, hval, List.map_cons, List.map_nil]
    norm_num
  · norm_num

/-- Determinism half of the noise contract (the no-claim remainder, the
`[-1,1]` range bound, is a global optimisation over the simplex grid and is
not mechanised here): an explicit `seed(s)` call rebuilds the whole
permutation table, so `noise3D` after `seed(s)` is a function of the seed and
the coordinates alone, independent of any earlier module-level table state. -/
theorem noise3D_after_seed_state_independent (g1 g2 : NoiseState) (sv : ℤ)
    (x y z : ℚ) :
    noise3D (seedUpd g1 sv) x y z = noise3D (seedUpd g2 sv) x y z := rfl
